import Mathlib

/-!
Shallow embedding of `pkg/cmd/secret/create/http.go`: public-key decoding
(`NewPubKey`, `getPubKey`), batched repository-name resolution
(`mapRepoNameToID`), payload construction and the secret write
(`putOrgSecret`, `putRepoSecret`, `putSecret`).

External collaborator calls (`client.REST`, `client.GraphQL`) are passed in
as explicit arguments: the embedded functions receive the unmarshalled
response together with the `error` value the call produced, and model the
post-call logic of the Go source.  Go run-time panics (nil-pointer
dereference, slice bounds out of range) are modelled by an explicit `panic`
outcome constructor.  Bytes are `Nat` (values < 256), Go `int` is `Int`.
-/

/-- One entry of `api.GraphQLErrorResponse.Errors` (fields `Type`, `Path`,
`Message` of `api.GraphQLError`; `Type` is spelled `Typ` here because `Type`
is not a usable field name in Lean). -/
structure GQLError where
  Typ : String
  Path : List String
  Message : String
  deriving DecidableEq

/-- Go `error` values as this file needs them: `graphQLErrors` is
`*api.GraphQLErrorResponse`, `errorMsg` a plain `fmt.Errorf` (no `%w`),
`wrapped` a `fmt.Errorf("...: %w", cause)` whose message is the given text
followed by the cause's message, `corruptInput` a `base64.CorruptInputError`. -/
inductive GoErr where
  | graphQLErrors (errors : List GQLError)
  | errorMsg (msg : String)
  | wrapped (msg : String) (cause : GoErr)
  | corruptInput
  deriving DecidableEq

/-- Value of a single base64 character in the standard alphabet
(`base64.StdEncoding`), `none` for a character outside the alphabet. -/
def b64Val (c : Char) : Option Nat :=
  if 65 ≤ c.toNat ∧ c.toNat ≤ 90 then some (c.toNat - 65)
  else if 97 ≤ c.toNat ∧ c.toNat ≤ 122 then some (c.toNat - 97 + 26)
  else if 48 ≤ c.toNat ∧ c.toNat ≤ 57 then some (c.toNat - 48 + 52)
  else if c = '+' then some 62
  else if c = '/' then some 63
  else none

/-- Decoding loop of `base64.StdEncoding.Decode`: consume 4-character quanta,
allowing `=` padding only in the last quantum (`x y = =` yields one byte,
`x y z =` two bytes), rejecting everything else.  Inputs containing CR/LF,
which Go skips, are not modelled (they never arise for keys). -/
def decodeQuanta : List Char → Option (List Nat)
  | [] => some []
  | a :: b :: c :: d :: rest =>
    match b64Val a, b64Val b with
    | some va, some vb =>
      if c = '=' then
        if d = '=' ∧ rest = [] then
          some [va * 4 + vb / 16]
        else
          none
      else
        match b64Val c with
        | some vc =>
          if d = '=' then
            if rest = [] then
              some [va * 4 + vb / 16, vb % 16 * 16 + vc / 4]
            else
              none
          else
            match b64Val d with
            | some vd =>
              (decodeQuanta rest).map
                (fun bs => (va * 4 + vb / 16) :: (vb % 16 * 16 + vc / 4) :: (vc % 4 * 64 + vd) :: bs)
            | none => none
        | none => none
    | _, _ => none
  | _ => none

/-- `base64.StdEncoding.DecodeString`: `none` models a non-nil decode error. -/
def base64StdDecode (s : String) : Option (List Nat) :=
  decodeQuanta s.data

/-- `PubKey` struct: `Key [32]byte`, `ID string`, unexported `encoded string`. -/
structure PubKey where
  Key : List Nat
  ID : String
  encoded : String
  deriving DecidableEq

/-- `func (pk *PubKey) String() string` returns the stored encoded form. -/
def PubKey.String (pk : PubKey) : String :=
  pk.encoded

/-- Result of a Go function returning `(*PubKey, error)`, with an extra
constructor for a run-time panic. -/
inductive PubKeyOutcome where
  | panic
  | err (e : GoErr)
  | ok (pk : PubKey)
  deriving DecidableEq

/-- `NewPubKey`: base64-decode `encodedKey`; on error wrap it as
`failed to decode public key: %w`.  Go then allocates
`dbuf := make([]byte, DecodedLen(len(s)))` inside `DecodeString`
(`DecodedLen(n) = n/4*3`, zero-initialised) and returns `dbuf[:n]`, and
`NewPubKey` runs `copy(pka[:], pk[0:32])`: reslicing up to capacity, which
panics when the capacity `len(s)/4*3` is below 32 and otherwise reads the
decoded bytes followed by the buffer's remaining zero bytes. -/
def NewPubKey (encodedKey keyID : String) : PubKeyOutcome :=
  match base64StdDecode encodedKey with
  | none => .err (.wrapped "failed to decode public key: " .corruptInput)
  | some pk =>
    if encodedKey.length / 4 * 3 < 32 then
      .panic
    else
      .ok { Key := (pk ++ List.replicate (encodedKey.length / 4 * 3 - pk.length) 0).take 32
            ID := keyID
            encoded := encodedKey }

/-- Unmarshalled body of the public-key fetch (`Key string`, `ID string`
with tag `key_id`). -/
structure PubKeyResponse where
  Key : String
  ID : String
  deriving DecidableEq

/-- `getPubKey`: `restErr` and `result` are the outcome of
`client.REST(host, "GET", path, nil, &result)`.  A non-nil error is returned
as-is; an empty `Key` field yields the `failed to find public key at %s/%s`
error; otherwise the key is decoded via `NewPubKey`. -/
def getPubKey (host path : String) (restErr : Option GoErr) (result : PubKeyResponse) :
    PubKeyOutcome :=
  match restErr with
  | some e => .err e
  | none =>
    if result.Key = "" then
      .err (.errorMsg ("failed to find public key at " ++ host ++ "/" ++ path))
    else
      NewPubKey result.Key result.ID

/-- Modelled from the spec: the repository handle (`ghrepo.Interface`,
defined outside the provided source) exposing a host and an owner/name pair. -/
structure GhRepo where
  owner : String
  name : String
  host : String
  deriving DecidableEq

/-- Modelled from the spec: `ghrepo.FullName`, the `owner/name` form. -/
def ghrepoFullName (r : GhRepo) : String :=
  r.owner ++ "/" ++ r.name

/-- `getOrgPublicKey` builds the organization-scoped key path. -/
def getOrgPublicKey (host orgName : String) (restErr : Option GoErr)
    (result : PubKeyResponse) : PubKeyOutcome :=
  getPubKey host ("orgs/" ++ orgName ++ "/actions/secrets/public-key") restErr result

/-- `getRepoPubKey` builds the repository-scoped key path. -/
def getRepoPubKey (repo : GhRepo) (restErr : Option GoErr)
    (result : PubKeyResponse) : PubKeyOutcome :=
  getPubKey repo.host ("repos/" ++ ghrepoFullName repo ++ "/actions/secrets/public-key")
    restErr result

/-- Go map lookup followed by the `*struct{ DatabaseID int }` dereference:
`none` is a nil pointer (the key is absent, or present with a JSON null),
whose `.DatabaseID` access panics; a later duplicate key cannot occur in a
Go map, so the first binding wins. -/
def lookupRepo : List (String × Option Int) → String → Option Int
  | [], _ => none
  | (k, v) :: rest, nm => if k = nm then v else lookupRepo rest nm

/-- The result-building loop of `mapRepoNameToID`:
`result = append(result, graphqlResult[repoName].DatabaseID)` over the
requested names in order; `none` models the nil-pointer panic on the first
name whose entry is missing. -/
def collectIDs (m : List (String × Option Int)) : List String → Option (List Int)
  | [] => some []
  | nm :: rest =>
    match lookupRepo m nm with
    | none => none
    | some id => (collectIDs m rest).map (fun ids => id :: ids)

/-- Result of a Go function returning `([]int, error)`, with a `panic`
constructor for the nil-pointer dereference. -/
inductive RepoIDsOutcome where
  | panic
  | err (e : GoErr)
  | ok (ids : List Int)
  deriving DecidableEq

/-- Post-call logic of `mapRepoNameToID`: `graphqlResult` and `gqlErr` are
the outcome of `client.GraphQL`.  When the error is a
`*api.GraphQLErrorResponse`, the loop returns `could not find %s/%s` built
from `ge.Path[0]` at the first entry with `Type == "NOT_FOUND"` (an empty
`Path` would make `Path[0]` panic); any other non-nil error is wrapped as
`failed to look up repositories: %w`; on nil error each requested name is
resolved through the response map in input order. -/
def mapRepoNameToID (orgName : String) (repositoryNames : List String)
    (graphqlResult : List (String × Option Int)) (gqlErr : Option GoErr) :
    RepoIDsOutcome :=
  match gqlErr with
  | some (.graphQLErrors errors) =>
    match errors.find? (fun ge => ge.Typ == "NOT_FOUND") with
    | some ge =>
      match ge.Path with
      | [] => .panic
      | nm :: _ => .err (.errorMsg ("could not find " ++ orgName ++ "/" ++ nm))
    | none => .err (.wrapped "failed to look up repositories: " (.graphQLErrors errors))
  | some e => .err (.wrapped "failed to look up repositories: " e)
  | none =>
    match collectIDs graphqlResult repositoryNames with
    | none => .panic
    | some ids => .ok ids

/-- `SecretPayload` struct; `Visibility` and `Repositories` carry
`omitempty` JSON tags. -/
structure SecretPayload where
  EncryptedValue : String
  Visibility : String
  Repositories : List Int
  KeyID : String
  deriving DecidableEq

/-- A JSON field value as produced for `SecretPayload`. -/
inductive JValue where
  | str (s : String)
  | arr (ns : List Int)
  deriving DecidableEq

/-- `json.Marshal` of `SecretPayload` as an ordered field list:
`encrypted_value`, then `visibility` unless empty, then
`selected_repository_ids` unless the slice is empty (`omitempty`), then
`key_id`. -/
def marshalSecretPayload (p : SecretPayload) : List (String × JValue) :=
  ("encrypted_value", .str p.EncryptedValue)
    :: ((if p.Visibility = "" then [] else [("visibility", JValue.str p.Visibility)])
      ++ (if p.Repositories = [] then []
          else [("selected_repository_ids", JValue.arr p.Repositories)])
      ++ [("key_id", JValue.str p.KeyID)])

/-- Modelled from the spec: the remote secret store behind the transport's
idempotent `PUT` (§4.4, §6) — a map from `(host, path)` to the serialized
body, written create-or-replace. -/
abbrev SecretStore := List ((String × String) × List (String × JValue))

/-- Modelled from the spec: create-or-replace of one secret in the store. -/
def upsertSecret (store : SecretStore) (host path : String)
    (body : List (String × JValue)) : SecretStore :=
  if store.any (fun e => e.1 = (host, path)) then
    store.map (fun e => if e.1 = (host, path) then ((host, path), body) else e)
  else
    ((host, path), body) :: store

/-- `putSecret`: serialize the payload with `json.Marshal` (which cannot
fail on this struct of strings and ints) and issue the `PUT`; the store is
the spec-modelled server state, and the nil first component is the
returned `error`. -/
def putSecret (store : SecretStore) (host path : String) (payload : SecretPayload) :
    Option GoErr × SecretStore :=
  (none, upsertSecret store host path (marshalSecretPayload payload))

/-- Modelled from the spec: the `visSelected` constant (defined in
`create.go`, outside the provided source), the "selected" visibility mode. -/
def visSelected : String :=
  "selected"

/-- Fields of `CreateOptions` that `putOrgSecret` reads (the struct is
defined in `create.go`, outside the provided source). -/
structure CreateOptions where
  SecretName : String
  OrgName : String
  Visibility : String
  RepositoryNames : List String
  deriving DecidableEq

/-- Go `fmt` `%v` rendering of a `[]string`. -/
def goFmtStrSlice (xs : List String) : String :=
  "[" ++ String.intercalate " " xs ++ "]"

/-- Outcome of the two put functions up to the final transport call: either
a panic, an `error` return, or the `PUT` request they hand to `putSecret`
(host, path, payload). -/
inductive PutOutcome where
  | panic
  | err (e : GoErr)
  | write (host path : String) (payload : SecretPayload)
  deriving DecidableEq

/-- `putOrgSecret`: resolve repository names only when `orgName != "" &&
visibility == visSelected` (otherwise `repositoryIDs` stays nil); a
resolution error returns `failed to look up IDs for repositories %v: %w`;
otherwise build the payload and `PUT` it to
`orgs/%s/actions/secrets/%s`. -/
def putOrgSecret (pk : PubKey) (host : String) (opts : CreateOptions) (eValue : String)
    (graphqlResult : List (String × Option Int)) (gqlErr : Option GoErr) : PutOutcome :=
  match
    if opts.OrgName ≠ "" ∧ opts.Visibility = visSelected then
      mapRepoNameToID opts.OrgName opts.RepositoryNames graphqlResult gqlErr
    else
      .ok []
  with
  | .panic => .panic
  | .err e =>
    .err (.wrapped
      ("failed to look up IDs for repositories " ++ goFmtStrSlice opts.RepositoryNames ++ ": ")
      e)
  | .ok repositoryIDs =>
    .write host ("orgs/" ++ opts.OrgName ++ "/actions/secrets/" ++ opts.SecretName)
      { EncryptedValue := eValue
        KeyID := pk.ID
        Repositories := repositoryIDs
        Visibility := opts.Visibility }

/-- `putRepoSecret`: payload with only `EncryptedValue` and `KeyID` set
(`Visibility` and `Repositories` stay zero-valued), `PUT` to
`repos/%s/actions/secrets/%s`. -/
def putRepoSecret (pk : PubKey) (repo : GhRepo) (secretName eValue : String) : PutOutcome :=
  .write repo.host ("repos/" ++ ghrepoFullName repo ++ "/actions/secrets/" ++ secretName)
    { EncryptedValue := eValue
      KeyID := pk.ID
      Repositories := []
      Visibility := "" }

/-- Every successful decode consumes whole quanta: the decode-buffer
capacity `len/4*3` that `DecodeString` allocates equals `3 * ⌈n/3⌉` for a
decoded length `n`. -/
theorem decodeQuanta_len : ∀ (cs : List Char) (bs : List Nat),
    decodeQuanta cs = some bs → cs.length / 4 * 3 = 3 * ((bs.length + 2) / 3)
  | [], bs, h => by
    simp only [decodeQuanta, Option.some.injEq] at h
    subst h
    rfl
  | [a], bs, h => Option.noConfusion h
  | [a, b], bs, h => Option.noConfusion h
  | [a, b, c], bs, h => Option.noConfusion h
  | a :: b :: c :: d :: rest, bs, h => by
    simp only [decodeQuanta] at h
    split at h
    · split at h
      · split at h
        · rename_i hcond
          obtain ⟨-, hrest⟩ := hcond
          injection h with h
          subst h
          subst hrest
          simp
        · exact Option.noConfusion h
      · split at h
        · split at h
          · split at h
            · rename_i hrest
              injection h with h
              subst h
              subst hrest
              simp
            · exact Option.noConfusion h
          · split at h
            · rw [Option.map_eq_some'] at h
              obtain ⟨bs', hbs', rfl⟩ := h
              have ih := decodeQuanta_len rest bs' hbs'
              simp only [List.length_cons]
              omega
            · exact Option.noConfusion h
        · exact Option.noConfusion h
    · exact Option.noConfusion h

/-- Capacity of the decode buffer in terms of the decoded length. -/
theorem base64StdDecode_len {s : String} {bs : List Nat}
    (h : base64StdDecode s = some bs) :
    s.length / 4 * 3 = 3 * ((bs.length + 2) / 3) :=
  decodeQuanta_len s.data bs h

/-- The result loop hits the nil-pointer dereference as soon as one
requested name has no usable entry in the response map. -/
theorem collectIDs_eq_none {m : List (String × Option Int)} :
    ∀ {names : List String} {nm : String}, nm ∈ names → lookupRepo m nm = none →
      collectIDs m names = none := by
  intro names
  induction names with
  | nil => intro nm hmem _; cases hmem
  | cons x xs ih =>
    intro nm hmem hmiss
    simp only [collectIDs]
    rcases List.mem_cons.mp hmem with rfl | hmem'
    · rw [hmiss]
    · cases hx : lookupRepo m x
      · rfl
      · rw [ih hmem' hmiss]
        rfl

/-- When every requested name has a usable entry, the result loop produces
one identifier per name, in input order, looked up from the response map. -/
theorem collectIDs_sound {m : List (String × Option Int)} :
    ∀ {names : List String}, (∀ n ∈ names, (lookupRepo m n).isSome) →
      ∃ ids, collectIDs m names = some ids ∧ ids.length = names.length ∧
        ∀ i (h1 : i < names.length) (h2 : i < ids.length),
          lookupRepo m (names.get ⟨i, h1⟩) = some (ids.get ⟨i, h2⟩) := by
  intro names
  induction names with
  | nil =>
    intro _
    exact ⟨[], rfl, rfl, fun i h1 _ => absurd h1 (Nat.not_lt_zero i)⟩
  | cons x xs ih =>
    intro hall
    obtain ⟨v, hv⟩ := Option.isSome_iff_exists.mp (hall x (List.mem_cons_self x xs))
    obtain ⟨ids, hids, hlen, hidx⟩ := ih (fun n hn => hall n (List.mem_cons_of_mem x hn))
    refine ⟨v :: ids, ?_, ?_, ?_⟩
    · simp only [collectIDs, hv, hids, Option.map_some']
    · simp [hlen]
    · intro i h1 h2
      cases i with
      | zero => exact hv
      | succ j =>
        exact hidx j (Nat.lt_of_succ_lt_succ h1) (Nat.lt_of_succ_lt_succ h2)

/-- The result loop only depends on the lookup behaviour of the response
map, not on its entry order. -/
theorem collectIDs_congr {m m' : List (String × Option Int)}
    (h : ∀ n, lookupRepo m' n = lookupRepo m n) :
    ∀ names : List String, collectIDs m' names = collectIDs m names := by
  intro names
  induction names with
  | nil => rfl
  | cons x xs ih => simp only [collectIDs, h x, ih]

/-- Reordering an association list with no duplicate keys does not change
lookups (a Go map never has duplicate keys). -/
theorem lookupRepo_perm {m m' : List (String × Option Int)} (p : m.Perm m')
    (nd : (m.map Prod.fst).Nodup) (a : String) :
    lookupRepo m a = lookupRepo m' a := by
  induction p with
  | nil => rfl
  | cons x p ih =>
    obtain ⟨k, v⟩ := x
    simp only [lookupRepo]
    by_cases hk : k = a
    · simp [hk]
    · simp only [if_neg hk]
      exact ih (by simpa using (List.nodup_cons.mp (by simpa using nd)).2)
  | swap x y l =>
    obtain ⟨k1, v1⟩ := x
    obtain ⟨k2, v2⟩ := y
    simp only [lookupRepo]
    by_cases h2 : k2 = a <;> by_cases h1 : k1 = a
    · exfalso
      have hnd := nd
      simp only [List.map_cons, List.nodup_cons, List.mem_cons, not_or] at hnd
      exact hnd.1.1 (h2.trans h1.symm)
    · simp [h1, h2]
    · simp [h1, h2]
    · simp [h1, h2]
  | trans p1 p2 ih1 ih2 =>
    rw [ih1 nd, ih2 ((p1.map Prod.fst).nodup_iff.mp nd)]

/-- Re-putting the same body at the same key leaves the store unchanged. -/
theorem upsertSecret_idem (store : SecretStore) (host path : String)
    (body : List (String × JValue)) :
    upsertSecret (upsertSecret store host path body) host path body =
      upsertSecret store host path body := by
  by_cases h : store.any (fun e => e.1 = (host, path)) = true
  · simp only [upsertSecret, if_pos h]
    have h2 : (store.map fun e => if e.1 = (host, path) then ((host, path), body) else e).any
        (fun e => e.1 = (host, path)) = true := by
      simp only [List.any_eq_true] at h ⊢
      obtain ⟨x, hx, hx1⟩ := h
      refine ⟨((host, path), body), List.mem_map.mpr ⟨x, hx, ?_⟩, by simp⟩
      simp only [decide_eq_true_eq] at hx1
      simp [hx1]
    rw [if_pos h2, List.map_map]
    apply List.map_congr_left
    intro e _
    by_cases he : e.1 = (host, path) <;> simp [Function.comp, he]
  · simp only [upsertSecret, if_neg h]
    have h2 : ((((host, path), body) :: store).any (fun e => e.1 = (host, path))) = true := by
      simp
    have hmap : store.map (fun e => if e.1 = (host, path) then ((host, path), body) else e)
        = store := by
      conv_rhs => rw [← List.map_id store]
      apply List.map_congr_left
      intro e he
      have hne : ¬ e.1 = (host, path) := by
        intro heq
        apply h
        simp only [List.any_eq_true]
        exact ⟨e, he, by simp [heq]⟩
      simp [hne]
    rw [if_pos h2]
    simp only [List.map_cons, hmap]
    simp

/-- C1: when the GraphQL call of `mapRepoNameToID` returns a structured
error list whose first `NOT_FOUND` entry is `ge`, the function returns the
`could not find org/name` error built from the head of that entry's path,
returns no identifier list, and the generic
`failed to look up repositories` wrapping of the call error never fires. -/
theorem mapRepoNameToID_notFound_precedence (orgName : String)
    (names : List String) (m : List (String × Option Int))
    (errors : List GQLError) (ge : GQLError) (nm : String) (tl : List String)
    (hfind : errors.find? (fun e => e.Typ == "NOT_FOUND") = some ge)
    (hpath : ge.Path = nm :: tl) :
    mapRepoNameToID orgName names m (some (.graphQLErrors errors)) =
      .err (.errorMsg ("could not find " ++ orgName ++ "/" ++ nm)) ∧
    (∃ e ∈ errors, e.Typ = "NOT_FOUND") ∧
    (∀ ids, mapRepoNameToID orgName names m (some (.graphQLErrors errors)) ≠ .ok ids) ∧
    (∀ msg cause, mapRepoNameToID orgName names m (some (.graphQLErrors errors)) ≠
      .err (.wrapped msg cause)) := by
  have h1 : mapRepoNameToID orgName names m (some (.graphQLErrors errors)) =
      .err (.errorMsg ("could not find " ++ orgName ++ "/" ++ nm)) := by
    simp only [mapRepoNameToID, hfind, hpath]
  refine ⟨h1, ?_, ?_, ?_⟩
  · have hp := List.find?_some hfind
    exact ⟨ge, List.mem_of_find?_eq_some hfind, by simpa using hp⟩
  · intro ids hok
    rw [h1] at hok
    exact RepoIDsOutcome.noConfusion hok
  · intro msg cause hw
    rw [h1] at hw
    injection hw with hw
    exact GoErr.noConfusion hw

/-- C1 witness: two errors, the first of another kind; the first
`NOT_FOUND` entry names `repoB` and wins over the generic wrap. -/
theorem mapRepoNameToID_notFound_precedence_witness :
    mapRepoNameToID "octo" ["a", "repoB"] [("a", some 1)]
      (some (.graphQLErrors
        [⟨"SOME_OTHER", ["x"], "other failure"⟩,
         ⟨"NOT_FOUND", ["repoB"], "could not resolve"⟩])) =
      .err (.errorMsg ("could not find " ++ "octo" ++ "/" ++ "repoB")) ∧
    (∃ e ∈ [(⟨"SOME_OTHER", ["x"], "other failure"⟩ : GQLError),
            ⟨"NOT_FOUND", ["repoB"], "could not resolve"⟩], e.Typ = "NOT_FOUND") ∧
    (∀ ids, mapRepoNameToID "octo" ["a", "repoB"] [("a", some 1)]
      (some (.graphQLErrors
        [⟨"SOME_OTHER", ["x"], "other failure"⟩,
         ⟨"NOT_FOUND", ["repoB"], "could not resolve"⟩])) ≠ .ok ids) ∧
    (∀ msg cause, mapRepoNameToID "octo" ["a", "repoB"] [("a", some 1)]
      (some (.graphQLErrors
        [⟨"SOME_OTHER", ["x"], "other failure"⟩,
         ⟨"NOT_FOUND", ["repoB"], "could not resolve"⟩])) ≠ .err (.wrapped msg cause)) :=
  mapRepoNameToID_notFound_precedence "octo" ["a", "repoB"] [("a", some 1)]
    [⟨"SOME_OTHER", ["x"], "other failure"⟩, ⟨"NOT_FOUND", ["repoB"], "could not resolve"⟩]
    ⟨"NOT_FOUND", ["repoB"], "could not resolve"⟩ "repoB" []
    (by decide) (by decide)

/-- C2: on a successful call (nil error, every requested name resolvable)
`mapRepoNameToID` returns one identifier per requested name, in input
order, each looked up from the response map by the original name; the
result is unchanged under any reordering of the response map's entries. -/
theorem mapRepoNameToID_order_preserving (orgName : String) (names : List String)
    (m : List (String × Option Int))
    (hall : ∀ n ∈ names, (lookupRepo m n).isSome) :
    ∃ ids, mapRepoNameToID orgName names m none = .ok ids ∧
      ids.length = names.length ∧
      (∀ i (h1 : i < names.length) (h2 : i < ids.length),
        lookupRepo m (names.get ⟨i, h1⟩) = some (ids.get ⟨i, h2⟩)) ∧
      (∀ m' : List (String × Option Int), (∀ n, lookupRepo m' n = lookupRepo m n) →
        mapRepoNameToID orgName names m' none = .ok ids) ∧
      (∀ m' : List (String × Option Int), m.Perm m' → (m.map Prod.fst).Nodup →
        mapRepoNameToID orgName names m' none = .ok ids) := by
  obtain ⟨ids, hids, hlen, hidx⟩ := collectIDs_sound hall
  have hmain : ∀ m' : List (String × Option Int), (∀ n, lookupRepo m' n = lookupRepo m n) →
      mapRepoNameToID orgName names m' none = .ok ids := by
    intro m' hm'
    have : collectIDs m' names = some ids := by rw [collectIDs_congr hm' names, hids]
    simp only [mapRepoNameToID, this]
  refine ⟨ids, hmain m (fun _ => rfl), hlen, hidx, hmain, ?_⟩
  intro m' hperm hnd
  exact hmain m' (fun n => (lookupRepo_perm hperm hnd n).symm)

/-- C2 witness: names `["a", "b"]` with IDs 10 and 20 resolve to
`[10, 20]` although the response map lists `b` first. -/
theorem mapRepoNameToID_order_preserving_witness :
    ∃ ids, mapRepoNameToID "octo" ["a", "b"] [("b", some 20), ("a", some 10)] none =
        .ok ids ∧
      ids.length = (["a", "b"] : List String).length ∧
      (∀ i (h1 : i < (["a", "b"] : List String).length) (h2 : i < ids.length),
        lookupRepo [("b", some 20), ("a", some 10)] ((["a", "b"] : List String).get ⟨i, h1⟩) =
          some (ids.get ⟨i, h2⟩)) ∧
      (∀ m' : List (String × Option Int),
        (∀ n, lookupRepo m' n = lookupRepo [("b", some 20), ("a", some 10)] n) →
        mapRepoNameToID "octo" ["a", "b"] m' none = .ok ids) ∧
      (∀ m' : List (String × Option Int),
        ([("b", some 20), ("a", some 10)] : List (String × Option Int)).Perm m' →
        (([("b", some 20), ("a", some 10)] : List (String × Option Int)).map Prod.fst).Nodup →
        mapRepoNameToID "octo" ["a", "b"] m' none = .ok ids) :=
  mapRepoNameToID_order_preserving "octo" ["a", "b"] [("b", some 20), ("a", some 10)]
    (by decide)

/-- C4 counterexample: with requested names `["a"]`, a nil call error and a
response map missing `a`, the claim predicts a normal return of `[0]`; the
code instead dereferences the nil pointer `graphqlResult["a"]` — a panic,
not a zero-valued result. -/
theorem mapRepoNameToID_missingEntry_cex :
    lookupRepo [] "a" = none ∧
    mapRepoNameToID "octo" ["a"] [] none ≠ .ok [0] ∧
    mapRepoNameToID "octo" ["a"] [] none = .panic := by decide

/-- C4 (amended): when the call reports no error but the success map lacks
a usable entry for some requested name, `mapRepoNameToID` panics on the nil
pointer dereference instead of returning normally. -/
theorem mapRepoNameToID_missingEntry_panics (orgName : String)
    (names : List String) (m : List (String × Option Int)) (nm : String)
    (hmem : nm ∈ names) (hmiss : lookupRepo m nm = none) :
    mapRepoNameToID orgName names m none = .panic := by
  simp only [mapRepoNameToID, collectIDs_eq_none hmem hmiss]

/-- C4 witness: the second of two requested names has no entry. -/
theorem mapRepoNameToID_missingEntry_panics_witness :
    mapRepoNameToID "octo" ["a", "b"] [("a", some 1)] none = .panic :=
  mapRepoNameToID_missingEntry_panics "octo" ["a", "b"] [("a", some 1)] "b"
    (by decide) (by decide)

/-- C3 counterexample: the empty string is valid base64 with a decoded
length of 0 < 32, yet `NewPubKey` does not return a `PubKey`: the reslice
`pk[0:32]` of the zero-capacity decode buffer panics. -/
theorem NewPubKey_short_cex :
    base64StdDecode "" = some [] ∧ ([] : List Nat).length < 32 ∧
    NewPubKey "" "keyID" = .panic := by decide

/-- C3 (amended): for valid base64 whose decoded form is shorter than 32
bytes, `NewPubKey` panics with a slice-bounds violation whenever the
decoded length is at most 30 (the decode buffer's capacity `len/4*3` stays
below 32); only a decoded length of exactly 31 (capacity 33, forced by
padding) yields a `PubKey`, whose last key byte is the buffer's zero
filler. -/
theorem NewPubKey_short_behavior (s keyID : String) (bs : List Nat)
    (hdec : base64StdDecode s = some bs) (hshort : bs.length < 32) :
    (bs.length ≤ 30 → NewPubKey s keyID = .panic) ∧
    (bs.length = 31 →
      NewPubKey s keyID = .ok { Key := bs ++ [0], ID := keyID, encoded := s }) := by
  have hcap := base64StdDecode_len hdec
  constructor
  · intro h30
    have hlt : s.length / 4 * 3 < 32 := by omega
    simp [NewPubKey, hdec, hlt]
  · intro h31
    have hge : ¬ s.length / 4 * 3 < 32 := by omega
    have hcap' : s.length / 4 * 3 = 33 := by omega
    simp only [NewPubKey, hdec, hge, if_false]
    have hkey : (bs ++ List.replicate (s.length / 4 * 3 - bs.length) 0).take 32 = bs ++ [0] := by
      rw [hcap', h31]
      have h32 : (32 : Nat) = bs.length + 1 := by omega
      rw [h32, List.take_append]
      rfl
    rw [hkey]

/-- C3 witness: `"AAAA"` decodes to 3 bytes and panics; 42 `A`s followed by
`==` decode to 31 zero bytes and produce a zero-padded key. -/
theorem NewPubKey_short_behavior_witness :
    NewPubKey "AAAA" "keyID" = .panic ∧
    NewPubKey "AAAAAAAAAAAAAAAAAAAAAAAAAAAAAAAAAAAAAAAAAA==" "keyID" =
      .ok { Key := List.replicate 31 0 ++ [0], ID := "keyID",
            encoded := "AAAAAAAAAAAAAAAAAAAAAAAAAAAAAAAAAAAAAAAAAA==" } :=
  ⟨(NewPubKey_short_behavior "AAAA" "keyID" [0, 0, 0] (by decide) (by decide)).1 (by decide),
   (NewPubKey_short_behavior "AAAAAAAAAAAAAAAAAAAAAAAAAAAAAAAAAAAAAAAAAA==" "keyID"
      (List.replicate 31 0) (by decide) (by decide)).2 (by decide)⟩

/-- C5: for valid base64 decoding to at least 32 bytes, `NewPubKey`
returns a `PubKey` whose `Key` is exactly the first 32 decoded bytes,
whose `ID` is the given key id and whose stored encoded form (returned by
`String()`) is the original input; for invalid base64 it returns the
wrapped decode error and no `PubKey`. -/
theorem NewPubKey_valid_roundTrip (s keyID : String) :
    (∀ bs, base64StdDecode s = some bs → 32 ≤ bs.length →
      NewPubKey s keyID = .ok { Key := bs.take 32, ID := keyID, encoded := s } ∧
      PubKey.String { Key := bs.take 32, ID := keyID, encoded := s } = s ∧
      (bs.take 32).length = 32) ∧
    (base64StdDecode s = none →
      NewPubKey s keyID = .err (.wrapped "failed to decode public key: " .corruptInput) ∧
      ∀ pk, NewPubKey s keyID ≠ .ok pk) := by
  constructor
  · intro bs hdec hlen
    have hcap := base64StdDecode_len hdec
    have hge : ¬ s.length / 4 * 3 < 32 := by omega
    refine ⟨?_, rfl, by simp [List.length_take]; omega⟩
    simp only [NewPubKey, hdec, hge, if_false]
    rw [List.take_append_of_le_length hlen]
  · intro hdec
    refine ⟨by simp [NewPubKey, hdec], ?_⟩
    intro pk h
    simp [NewPubKey, hdec] at h

/-- C5 witness: 44 `A`s decode to 33 zero bytes (key = first 32, round
trip of the string form); `"!"` is rejected with the decode error. -/
theorem NewPubKey_valid_roundTrip_witness :
    (NewPubKey "AAAAAAAAAAAAAAAAAAAAAAAAAAAAAAAAAAAAAAAAAAAA" "keyID" =
      .ok ⟨List.replicate 32 0, "keyID", "AAAAAAAAAAAAAAAAAAAAAAAAAAAAAAAAAAAAAAAAAAAA"⟩ ∧
     PubKey.String
        ⟨List.replicate 32 0, "keyID", "AAAAAAAAAAAAAAAAAAAAAAAAAAAAAAAAAAAAAAAAAAAA"⟩ =
        "AAAAAAAAAAAAAAAAAAAAAAAAAAAAAAAAAAAAAAAAAAAA" ∧
     (List.replicate 32 (0 : Nat)).length = 32) ∧
    (NewPubKey "!" "keyID" = .err (.wrapped "failed to decode public key: " .corruptInput) ∧
     ∀ pk, NewPubKey "!" "keyID" ≠ .ok pk) :=
  ⟨(NewPubKey_valid_roundTrip "AAAAAAAAAAAAAAAAAAAAAAAAAAAAAAAAAAAAAAAAAAAA" "keyID").1
      (List.replicate 33 0) (by decide) (by decide),
   (NewPubKey_valid_roundTrip "!" "keyID").2 (by decide)⟩

/-- C6: the repository-scoped payload built by `putRepoSecret` serializes
with neither `visibility` nor `selected_repository_ids`; the
organization-scoped payload built by `putOrgSecret` serializes with the
`visibility` field (whenever the visibility string is non-empty, which
upstream validation guarantees), carries `selected_repository_ids` exactly
when the resolved ID list is non-empty, and for any visibility other than
`selected` the resolved list is empty, so the field never appears. -/
theorem secretPayload_shape (pk : PubKey) (repo : GhRepo)
    (secretName eValue host : String) (opts : CreateOptions)
    (m : List (String × Option Int)) (gqlErr : Option GoErr) :
    (∀ h p pl, putRepoSecret pk repo secretName eValue = .write h p pl →
      marshalSecretPayload pl =
        [("encrypted_value", JValue.str eValue), ("key_id", JValue.str pk.ID)]) ∧
    (∀ h p pl, putOrgSecret pk host opts eValue m gqlErr = .write h p pl →
      (opts.Visibility ≠ "" →
        ("visibility", JValue.str opts.Visibility) ∈ marshalSecretPayload pl) ∧
      ((∃ v, ("selected_repository_ids", v) ∈ marshalSecretPayload pl) ↔
        pl.Repositories ≠ []) ∧
      (opts.Visibility ≠ visSelected → pl.Repositories = [] ∧
        ∀ v, ("selected_repository_ids", v) ∉ marshalSecretPayload pl)) := by
  constructor
  · intro h p pl hw
    simp only [putRepoSecret, PutOutcome.write.injEq] at hw
    obtain ⟨-, -, rfl⟩ := hw
    simp [marshalSecretPayload]
  · intro h p pl hw
    simp only [putOrgSecret] at hw
    split at hw
    · exact PutOutcome.noConfusion hw
    · exact PutOutcome.noConfusion hw
    · rename_i ids heq
      simp only [PutOutcome.write.injEq] at hw
      obtain ⟨-, -, rfl⟩ := hw
      have hrep : opts.Visibility ≠ visSelected → ids = [] := by
        intro hvis
        split at heq
        · rename_i hc
          exact absurd hc.2 hvis
        · injection heq with heq
          exact heq.symm
      refine ⟨?_, ?_, ?_⟩
      · intro hvis
        simp [marshalSecretPayload, hvis]
      · by_cases hids : ids = [] <;>
          by_cases hvis : opts.Visibility = "" <;>
          simp [marshalSecretPayload, hids, hvis]
      · intro hvis
        have hids := hrep hvis
        subst hids
        refine ⟨rfl, ?_⟩
        intro v
        by_cases hv : opts.Visibility = "" <;> simp [marshalSecretPayload, hv]

/-- C6 witness: a concrete repository write and two concrete organization
writes, one with `selected` visibility and a non-empty ID list, one with
`all` visibility. -/
theorem secretPayload_shape_witness :
    marshalSecretPayload ⟨"ev", "", [], "kid"⟩ =
      [("encrypted_value", JValue.str "ev"), ("key_id", JValue.str "kid")] ∧
    (("visibility", JValue.str "selected") ∈
      marshalSecretPayload ⟨"ev", "selected", [10], "kid"⟩) ∧
    ((∃ v, ("selected_repository_ids", v) ∈
      marshalSecretPayload ⟨"ev", "selected", [10], "kid"⟩) ↔
      ([10] : List Int) ≠ []) ∧
    (([] : List Int) = [] ∧
      ∀ v, ("selected_repository_ids", v) ∉ marshalSecretPayload ⟨"ev", "all", [], "kid"⟩) :=
  have h1 := (secretPayload_shape ⟨List.replicate 32 0, "kid", "e"⟩ ⟨"o", "r", "gh"⟩
    "sn" "ev" "gh" ⟨"sn", "o", "selected", ["a"]⟩ [("a", some 10)] none).1
    "gh" "repos/o/r/actions/secrets/sn" ⟨"ev", "", [], "kid"⟩ (by decide)
  have h2 := (secretPayload_shape ⟨List.replicate 32 0, "kid", "e"⟩ ⟨"o", "r", "gh"⟩
    "sn" "ev" "gh" ⟨"sn", "o", "selected", ["a"]⟩ [("a", some 10)] none).2
    "gh" "orgs/o/actions/secrets/sn" ⟨"ev", "selected", [10], "kid"⟩ (by decide)
  have h3 := (secretPayload_shape ⟨List.replicate 32 0, "kid", "e"⟩ ⟨"o", "r", "gh"⟩
    "sn" "ev" "gh" ⟨"sn", "o", "all", ["a"]⟩ [("a", some 10)] none).2
    "gh" "orgs/o/actions/secrets/sn" ⟨"ev", "all", [], "kid"⟩ (by decide)
  ⟨h1, h2.1 (by decide), h2.2.1, h3.2.2 (by decide)⟩

/-- C7: an empty `Key` field in the fetched response makes `getPubKey`
fail with the not-found error naming the queried host and endpoint path,
whatever the rest of the response holds; a transport-level failure is
propagated unchanged instead. -/
theorem getPubKey_emptyKey_notFound (host path : String) :
    (∀ id, getPubKey host path none ⟨"", id⟩ =
      .err (.errorMsg ("failed to find public key at " ++ host ++ "/" ++ path))) ∧
    (∀ e res, getPubKey host path (some e) res = .err e) :=
  ⟨fun id => by simp [getPubKey], fun e res => rfl⟩

/-- C8: when repository-name resolution inside `putOrgSecret` fails, the
returned error wraps the resolver's error unchanged under a message naming
the requested repositories, and no write request is produced. -/
theorem putOrgSecret_resolutionFailure (pk : PubKey) (host eValue : String)
    (opts : CreateOptions) (m : List (String × Option Int)) (gqlErr : Option GoErr)
    (e : GoErr)
    (hcond : opts.OrgName ≠ "" ∧ opts.Visibility = visSelected)
    (hfail : mapRepoNameToID opts.OrgName opts.RepositoryNames m gqlErr = .err e) :
    putOrgSecret pk host opts eValue m gqlErr =
      .err (.wrapped
        ("failed to look up IDs for repositories " ++ goFmtStrSlice opts.RepositoryNames
          ++ ": ") e) ∧
    (∀ h p pl, putOrgSecret pk host opts eValue m gqlErr ≠ .write h p pl) := by
  have h1 : putOrgSecret pk host opts eValue m gqlErr =
      .err (.wrapped
        ("failed to look up IDs for repositories " ++ goFmtStrSlice opts.RepositoryNames
          ++ ": ") e) := by
    simp only [putOrgSecret, if_pos hcond, hfail]
  refine ⟨h1, ?_⟩
  intro h p pl hw
  rw [h1] at hw
  exact PutOutcome.noConfusion hw

/-- C8 witness: a transport failure during resolution for names
`["a", "b"]` is wrapped, names included, with the cause kept intact. -/
theorem putOrgSecret_resolutionFailure_witness :
    putOrgSecret ⟨List.replicate 32 0, "kid", "e"⟩ "gh"
      ⟨"sn", "octo", "selected", ["a", "b"]⟩ "ev" [] (some (.errorMsg "boom")) =
      .err (.wrapped ("failed to look up IDs for repositories " ++ goFmtStrSlice ["a", "b"]
        ++ ": ") (.wrapped "failed to look up repositories: " (.errorMsg "boom"))) ∧
    (∀ h p pl, putOrgSecret ⟨List.replicate 32 0, "kid", "e"⟩ "gh"
      ⟨"sn", "octo", "selected", ["a", "b"]⟩ "ev" [] (some (.errorMsg "boom")) ≠
        .write h p pl) :=
  putOrgSecret_resolutionFailure ⟨List.replicate 32 0, "kid", "e"⟩ "gh" "ev"
    ⟨"sn", "octo", "selected", ["a", "b"]⟩ [] (some (.errorMsg "boom"))
    (.wrapped "failed to look up repositories: " (.errorMsg "boom"))
    (by decide) (by decide)

/-- C9: `putSecret` against the spec-modelled upsert store is idempotent:
the call reports no error, and repeating it with identical host, path and
payload returns the same outcome and leaves the same store state. -/
theorem putSecret_idempotent (store : SecretStore) (host path : String)
    (payload : SecretPayload) :
    (putSecret store host path payload).1 = none ∧
    putSecret (putSecret store host path payload).2 host path payload =
      putSecret store host path payload := by
  refine ⟨rfl, ?_⟩
  simp only [putSecret, Prod.mk.injEq, true_and]
  exact upsertSecret_idem store host path (marshalSecretPayload payload)

/-- C10: with an empty organization name, `putOrgSecret` skips resolution
even under `selected` visibility — whatever the GraphQL collaborator would
have returned — and writes to the path built from the empty name, with an
empty ID list (so the serialized payload omits `selected_repository_ids`
but still carries `visibility: selected`). -/
theorem putOrgSecret_emptyOrg (pk : PubKey) (host eValue : String)
    (opts : CreateOptions) (horg : opts.OrgName = "")
    (hvis : opts.Visibility = visSelected)
    (m : List (String × Option Int)) (gqlErr : Option GoErr) :
    putOrgSecret pk host opts eValue m gqlErr =
      .write host ("orgs//actions/secrets/" ++ opts.SecretName)
        ⟨eValue, visSelected, [], pk.ID⟩ ∧
    (∀ v, ("selected_repository_ids", v) ∉
      marshalSecretPayload ⟨eValue, visSelected, [], pk.ID⟩) ∧
    ("visibility", JValue.str visSelected) ∈
      marshalSecretPayload ⟨eValue, visSelected, [], pk.ID⟩ := by
  have hcond : ¬(opts.OrgName ≠ "" ∧ opts.Visibility = visSelected) := by
    simp [horg]
  refine ⟨?_, ?_, ?_⟩
  · simp only [putOrgSecret, if_neg hcond, horg, hvis]
    rfl
  · intro v
    simp [marshalSecretPayload, visSelected]
  · simp [marshalSecretPayload, visSelected]

/-- C10 witness: concrete options with an empty organization name,
`selected` visibility and a nonempty requested-name list, against a
response map and error that would otherwise matter. -/
theorem putOrgSecret_emptyOrg_witness :
    putOrgSecret ⟨List.replicate 32 0, "kid", "e"⟩ "gh"
      ⟨"sn", "", "selected", ["a"]⟩ "ev" [("x", some 3)] (some (.errorMsg "boom")) =
      .write "gh" ("orgs//actions/secrets/" ++ "sn") ⟨"ev", "selected", [], "kid"⟩ ∧
    (∀ v, ("selected_repository_ids", v) ∉
      marshalSecretPayload ⟨"ev", "selected", [], "kid"⟩) ∧
    ("visibility", JValue.str "selected") ∈
      marshalSecretPayload ⟨"ev", "selected", [], "kid"⟩ :=
  putOrgSecret_emptyOrg ⟨List.replicate 32 0, "kid", "e"⟩ "gh" "ev"
    ⟨"sn", "", "selected", ["a"]⟩ (by decide) (by decide) [("x", some 3)]
    (some (.errorMsg "boom"))
